import Mathlib

/-!
Verification of the Conversation Bridge Orchestrator of the llm-trainer
repository (`src/middleware.py`).  The orchestrator state machine, the
topic scheduler, the stall detector, the context window and the session
recorder are embedded shallowly: network calls (`send_to_llm`,
`send_to_cerebrum`) are modelled as per-iteration oracle inputs, stateful
Python code becomes explicit state passing, and Python list slicing with a
possibly-zero negative bound is modelled exactly (`xs[-0:]` is the whole
list).
-/

namespace LLMTrainer

/-- Python slice `xs[-limit:]` for a non-negative `limit`.  In Python,
`-0 == 0`, hence `xs[-0:]` is `xs[0:]`, the whole list; for `limit > 0` it
is the last `min limit xs.length` elements. -/
def pySliceLastN (xs : List α) (limit : Nat) : List α :=
  if limit = 0 then xs else xs.drop (xs.length - limit)

/-- One recorded exchange (`ConversationExchange` in `middleware.py`).
Timestamps are abstracted as naturals supplied by the environment; the
`cerebrum_emotions` float values are never computed on, so they are carried
opaquely as integers. -/
structure ConversationExchange where
  timestamp : Nat
  llm_to_cerebrum : String
  cerebrum_response : String
  cerebrum_emotions : List (String × Int)
deriving Repr, DecidableEq

/-- The mutable module-level `TrainingState` of `middleware.py`. -/
structure TrainingState where
  running : Bool
  exchanges_completed : Nat
  current_topic_index : Nat
  messages_on_current_topic : Nat
  started_at : Option Nat
  conversation_log : List ConversationExchange
  current_topic : String
deriving Repr, DecidableEq

/-- The state constructed by `TrainingState.__init__`. -/
def initialTrainingState : TrainingState :=
  { running := false, exchanges_completed := 0, current_topic_index := 0,
    messages_on_current_topic := 0, started_at := none,
    conversation_log := [], current_topic := "" }

/-- The configuration values the training loop reads: the topic list
(`config['conversation_topics']`), the run parameters of
`/api/training/start`, and `config['max_conversation_history']`. -/
structure LoopConfig where
  topics : List String
  max_exchanges : Nat
  topic_switch_interval : Nat
  max_conversation_history : Nat
deriving Repr

/-- The errors `start_training` can raise before mutating any state. -/
inductive StartError
  | alreadyRunning
  | cerebrumUnavailable
  | llmUnavailable
deriving Repr, DecidableEq

/-- The `/api/training/start` handler (`start_training`,
`middleware.py:721-751`): it raises (returning the state unchanged) if a
run is already active or a readiness probe fails, and otherwise resets
every session field.  The two probe outcomes are inputs.  It performs no
validation of the topic list or of `max_exchanges`. -/
def start_training (s : TrainingState) (cerebrum_ok llm_ok : Bool) (now : Nat) :
    TrainingState × Except StartError Unit :=
  if s.running then (s, .error .alreadyRunning)
  else if !cerebrum_ok then (s, .error .cerebrumUnavailable)
  else if !llm_ok then (s, .error .llmUnavailable)
  else ({ running := true, exchanges_completed := 0, current_topic_index := 0,
          messages_on_current_topic := 0, started_at := some now,
          conversation_log := [], current_topic := "" }, .ok ())

/-- The topic scheduler (`get_next_topic`, `middleware.py:314-318`).
`topics[i]` raises `IndexError` when the index is out of range (in
particular on an empty list), modelled as `none`; on success the cursor
advances modulo the list length. -/
def get_next_topic (topics : List String) (s : TrainingState) :
    Option (String × TrainingState) :=
  match topics[s.current_topic_index]? with
  | none => none
  | some topic =>
      some (topic,
        { s with current_topic_index := (s.current_topic_index + 1) % topics.length })

/-- The persisted session artifact written by `save_conversation_log`. -/
structure SessionLogArtifact where
  started_at : Option Nat
  exchanges_completed : Nat
  conversation : List ConversationExchange
deriving Repr, DecidableEq

/-- `save_conversation_log` (`middleware.py:321-347`): a no-op when the
in-memory log is empty; otherwise it writes one artifact holding the
session info and the whole log.  A write failure (`diskOk = false`) is
caught and logged, producing no artifact and never propagating. -/
def save_conversation_log (diskOk : Bool) (s : TrainingState) :
    Option SessionLogArtifact :=
  if s.conversation_log.isEmpty then none
  else if diskOk then
    some { started_at := s.started_at,
           exchanges_completed := s.exchanges_completed,
           conversation := s.conversation_log }
  else none

/-- The parsed reply of a successful `send_to_cerebrum` call:
`data.get('response', '')` and `data.get('emotions', \x7b\x7d)` with their
defaults already applied. -/
structure CerebrumData where
  response : String
  emotions : List (String × Int)
deriving Repr, DecidableEq

/-- Removes leading and trailing whitespace from a character list. -/
def stripChars (cs : List Char) : List Char :=
  ((cs.dropWhile Char.isWhitespace).reverse.dropWhile Char.isWhitespace).reverse

/-- Python `str.strip()` with no argument: the string with whitespace
removed from both ends. -/
def pyStrip (s : String) : String := ⟨stripChars s.data⟩

/-- Models the value the training loop observes from a `send_to_llm` call
followed by the caller's falsiness test (`if not llm_response`).
`send_to_llm` strips the reply (`data.get('response', '').strip()`); both
`None` and the stripped-empty string are falsy and take the skip branch,
so they collapse to `none`. -/
def send_to_llm_result (raw : Option String) : Option String :=
  match raw with
  | none => none
  | some s => if pyStrip s = "" then none else some (pyStrip s)

/-- The oracle inputs one loop iteration may consume: whether a stop
request arrived before the loop-condition check, the raw Responder (LLM)
reply, the Subject (CEREBRUM) reply, and the current clock value. -/
structure IterInput where
  stop : Bool
  llmReply : Option String
  cerebrumReply : Option CerebrumData
  now : Nat
deriving Repr

/-- The complete state mutated by one `training_loop` run: the shared
`TrainingState` plus the loop-local variables `conversation_history`
(pairs `(user, assistant)`), `recent_llm_responses`, `loop_break_attempts`
and the current `cerebrum_response`. -/
structure LoopState where
  ts : TrainingState
  conversation_history : List (String × String)
  recent_llm_responses : List String
  loop_break_attempts : Nat
  cerebrum_response : String
deriving Repr, DecidableEq

/-- The stall check of `middleware.py:465-468`:
`len(recent) >= 3 and len(set(recent[-3:])) == 1`.  `List.dedup` plays the
role of `set`. -/
def is_looping (recent : List String) : Bool :=
  decide (3 ≤ recent.length) && ((pySliceLastN recent 3).dedup.length == 1)

/-- The stall-detector buffer maintenance of `middleware.py:497-499`:
append the response, then `pop(0)` once when the length exceeds 10. -/
def observeResponse (recent : List String) (r : String) : List String :=
  let l := recent ++ [r]
  if 10 < l.length then l.drop 1 else l

/-- The context-window push of `middleware.py:525-532`: append the pair,
then keep `history[-max_conversation_history * 2:]` when the length
exceeds `max_conversation_history * 2`.  Note that for a zero horizon the
slice is `[-0:]`, the whole list. -/
def pushHistory (m : Nat) (hist : List (String × String))
    (p : String × String) : List (String × String) :=
  let h := hist ++ [p]
  if m * 2 < h.length then pySliceLastN h (m * 2) else h

/-- The fixed greeting prompt of `middleware.py:398`. -/
def greeting_prompt : String :=
  "Introduce yourself as a helpful AI friend and greet CEREBRUM warmly. Ask them a simple question to start the conversation."

/-- The topic-introduction prompt of `middleware.py:449`. -/
def topic_intro_prompt (new_topic : String) : String :=
  "Naturally transition the conversation to discuss: " ++ new_topic

/-- The loop-breaking prompt of `middleware.py:475`. -/
def loop_break_prompt (cerebrum_response : String) : String :=
  "You seem to be stuck. CEREBRUM said: " ++ cerebrum_response ++
  ". Try a completely different approach - ask them a new question or change the subject entirely."

/-- One outbound call to the Responder: the message and the history slice
the orchestrator passes to `send_to_llm`. -/
structure LlmCall where
  message : String
  history : List (String × String)
deriving Repr, DecidableEq

/-- Observable events of one loop iteration: whether the stall expression
was evaluated (it lives only in the non-topic-switch branch), the
Responder call issued, the text sent to the Subject, the exchange recorded
and the number of `time.sleep(delay)` calls executed. -/
structure IterTrace where
  stallChecked : Bool
  llmCall : Option LlmCall
  cerebrumCall : Option String
  recorded : Option ConversationExchange
  sleeps : Nat
deriving Repr, DecidableEq

/-- One execution of the `while` body of `training_loop`
(`middleware.py:437-541`), entered with the loop condition already
checked.  `Except.error` is the uncaught `IndexError` of `get_next_topic`
on a bad cursor (it propagates to the `except` handler, ending the run);
its payload is the state at the point of the raise (the topic counter was
already reset). -/
def loopIter (cfg : LoopConfig) (inp : IterInput) (st : LoopState) :
    Except LoopState (LoopState × IterTrace) :=
  if cfg.topic_switch_interval ≤ st.ts.messages_on_current_topic then
    let ts1 := { st.ts with messages_on_current_topic := 0 }
    match get_next_topic cfg.topics ts1 with
    | none => .error { st with ts := ts1 }
    | some (new_topic, ts2) =>
      let ts3 := { ts2 with current_topic := new_topic }
      let call : LlmCall :=
        { message := topic_intro_prompt new_topic,
          history := pySliceLastN st.conversation_history cfg.max_conversation_history }
      match send_to_llm_result inp.llmReply with
      | none =>
          .ok ({ st with ts := ts3 },
               { stallChecked := false, llmCall := some call,
                 cerebrumCall := none, recorded := none, sleeps := 1 })
      | some llm_response =>
          let cr := match inp.cerebrumReply with
            | none => ""
            | some cd => cd.response
          .ok ({ st with ts := ts3, cerebrum_response := cr },
               { stallChecked := false, llmCall := some call,
                 cerebrumCall := some llm_response, recorded := none, sleeps := 1 })
  else
    let stalled := is_looping st.recent_llm_responses
    let attempts :=
      if stalled && decide (st.loop_break_attempts < 3)
      then st.loop_break_attempts + 1 else 0
    let call : LlmCall :=
      if stalled && decide (st.loop_break_attempts < 3) then
        { message := loop_break_prompt st.cerebrum_response, history := [] }
      else
        { message := st.cerebrum_response,
          history := pySliceLastN st.conversation_history cfg.max_conversation_history }
    match send_to_llm_result inp.llmReply with
    | none =>
        .ok ({ st with loop_break_attempts := attempts },
             { stallChecked := true, llmCall := some call,
               cerebrumCall := none, recorded := none, sleeps := 1 })
    | some llm_response =>
        let recent := observeResponse st.recent_llm_responses llm_response
        match inp.cerebrumReply with
        | none =>
            .ok ({ st with loop_break_attempts := attempts,
                           recent_llm_responses := recent },
                 { stallChecked := true, llmCall := some call,
                   cerebrumCall := some llm_response, recorded := none, sleeps := 2 })
        | some cd =>
            let exchange : ConversationExchange :=
              { timestamp := inp.now, llm_to_cerebrum := llm_response,
                cerebrum_response := cd.response, cerebrum_emotions := cd.emotions }
            let ts' := { st.ts with
              conversation_log := st.ts.conversation_log ++ [exchange],
              exchanges_completed := st.ts.exchanges_completed + 1,
              messages_on_current_topic := st.ts.messages_on_current_topic + 1 }
            .ok ({ ts := ts',
                   conversation_history :=
                     pushHistory cfg.max_conversation_history
                       st.conversation_history (llm_response, cd.response),
                   recent_llm_responses := recent,
                   loop_break_attempts := attempts,
                   cerebrum_response := cd.response },
                 { stallChecked := true, llmCall := some call,
                   cerebrumCall := some llm_response,
                   recorded := some exchange, sleeps := 2 })

/-- The `while` condition of `middleware.py:437`. -/
def loopCond (cfg : LoopConfig) (st : LoopState) : Bool :=
  st.ts.running && decide (st.ts.exchanges_completed < cfg.max_exchanges)

/-- A stop request (`/api/training/stop` sets `running = False`) observed
cooperatively at the top-of-loop safe point. -/
def applyStop (inp : IterInput) (st : LoopState) : LoopState :=
  if inp.stop then { st with ts := { st.ts with running := false } } else st

/-- Runs the `while` loop on a finite input trace.  The first component
lists the state at every loop-condition check (plus the state at an
uncaught raise); the second is `some` final state when the loop left its
body (condition false, or an exception reached the handler) and `none`
when the observed inputs ran out with the condition still true. -/
def runAux (cfg : LoopConfig) :
    List IterInput → LoopState → List LoopState × Option LoopState
  | [], st => if loopCond cfg st then ([st], none) else ([st], some st)
  | inp :: rest, st =>
    let st0 := applyStop inp st
    if loopCond cfg st0 then
      match loopIter cfg inp st0 with
      | .error stE => ([st0, stE], some stE)
      | .ok (st', _) =>
          let r := runAux cfg rest st'
          (st0 :: r.1, r.2)
    else ([st0], some st0)

/-- The oracle inputs of the greeting phase (`middleware.py:396-434`). -/
structure GreetInput where
  llmReply : Option String
  cerebrumReply : Option CerebrumData
  now : Nat
deriving Repr

/-- The outcome of a terminated run: the final `TrainingState`, the
artifact the single flush produced, and how many times
`save_conversation_log` was invoked. -/
structure RunEnd where
  final : TrainingState
  artifact : Option SessionLogArtifact
  flushCount : Nat
deriving Repr, DecidableEq

/-- The `finally` block of `training_loop` (`middleware.py:545-548`): set
`running = False`, then flush the session recorder once. -/
def finishRun (diskOk : Bool) (ts : TrainingState) : RunEnd :=
  let tsF := { ts with running := false }
  { final := tsF, artifact := save_conversation_log diskOk tsF, flushCount := 1 }

/-- The loop state after a successful greeting phase
(`middleware.py:414-434`): the greeting exchange is recorded, both
counters are incremented, the greeting seeds the conversation history and
the stall-detector buffer, and no recovery attempts have been used. -/
def greetState (g : GreetInput) (ts0 : TrainingState) (greeting : String)
    (cd : CerebrumData) : LoopState :=
  { ts := { ts0 with
      conversation_log := ts0.conversation_log ++
        [{ timestamp := g.now, llm_to_cerebrum := greeting,
           cerebrum_response := cd.response, cerebrum_emotions := cd.emotions }],
      exchanges_completed := ts0.exchanges_completed + 1,
      messages_on_current_topic := ts0.messages_on_current_topic + 1 },
    conversation_history := [(greeting, cd.response)],
    recent_llm_responses := [greeting],
    loop_break_attempts := 0,
    cerebrum_response := cd.response }

/-- `training_loop` (`middleware.py:350-548`) on the state `start_training`
just installed: the greeting phase (either early return path sets
`running = False` and falls to the `finally` block), then the main loop,
then the `finally` block.  Returns the per-iteration state trace and, when
the run terminated within the observed inputs, the `RunEnd`. -/
def training_loop (cfg : LoopConfig) (diskOk : Bool) (g : GreetInput)
    (inputs : List IterInput) (ts0 : TrainingState) :
    List LoopState × Option RunEnd :=
  match send_to_llm_result g.llmReply with
  | none => ([], some (finishRun diskOk { ts0 with running := false }))
  | some greeting =>
    match g.cerebrumReply with
    | none => ([], some (finishRun diskOk { ts0 with running := false }))
    | some cd =>
      match runAux cfg inputs (greetState g ts0 greeting cd) with
      | (tr, none) => (tr, none)
      | (tr, some stF) => (tr, some (finishRun diskOk stF.ts))

/-- The `/api/training/log` handler (`get_conversation_log`,
`middleware.py:791-799`): slices `conversation_log[-limit:]` and returns
`(total_exchanges, showing, exchanges)`. -/
def get_conversation_log (log : List ConversationExchange) (limit : Nat) :
    Nat × Nat × List ConversationExchange :=
  let entries := pySliceLastN log limit
  (log.length, entries.length, entries)

/-- A three-exchange log used to exercise the log query. -/
def wLog : List ConversationExchange :=
  [⟨0, "a", "x", []⟩, ⟨1, "b", "y", []⟩, ⟨2, "c", "z", []⟩]

/-- A session state with an active run. -/
def wRunning : TrainingState := { initialTrainingState with running := true }

/-- A mid-run loop state: one exchange recorded, one message on the
current topic. -/
def wSt : LoopState :=
  { ts := { running := true, exchanges_completed := 1, current_topic_index := 0,
            messages_on_current_topic := 1, started_at := some 0,
            conversation_log := [⟨0, "g", "r", []⟩], current_topic := "" },
    conversation_history := [("g", "r")],
    recent_llm_responses := ["g"],
    loop_break_attempts := 0,
    cerebrum_response := "r" }

/-- A configuration that switches topic after every message. -/
def wCfg : LoopConfig := ⟨["alpha", "beta"], 100, 1, 5⟩

/-- A configuration whose exchange limit is zero. -/
def wCfg0 : LoopConfig := ⟨["alpha"], 0, 10, 5⟩

/-- A configuration with an empty topic list. -/
def wCfgEmpty : LoopConfig := ⟨[], 100, 1, 5⟩

/-- An iteration input on which both agents reply successfully. -/
def wInp : IterInput := ⟨false, some "topic talk", some ⟨"ok", []⟩, 5⟩

/-- Converts an iteration outcome to an option, `none` on a raise. -/
def iterOk (r : Except LoopState (LoopState × IterTrace)) :
    Option (LoopState × IterTrace) :=
  match r with
  | .ok x => some x
  | .error _ => none

/-- A configuration with a ten-message topic interval. -/
def wCfg10 : LoopConfig := ⟨["alpha", "beta"], 100, 10, 5⟩

/-- A loop state whose last three recorded Responder outputs are
identical (a stalled dialogue), with no recovery attempts used yet. -/
def wStalled : LoopState :=
  { ts := { running := true, exchanges_completed := 3, current_topic_index := 0,
            messages_on_current_topic := 3, started_at := some 0,
            conversation_log :=
              [⟨0, "same", "r1", []⟩, ⟨1, "same", "r2", []⟩, ⟨2, "same", "r3", []⟩],
            current_topic := "" },
    conversation_history := [("same", "r1"), ("same", "r2"), ("same", "r3")],
    recent_llm_responses := ["same", "same", "same"],
    loop_break_attempts := 0,
    cerebrum_response := "r3" }

/-- An iteration input where the Responder replies but the Subject fails. -/
def wInpFail : IterInput := ⟨false, some "next", none, 6⟩

/-- The scheduler output expected for the topic-switch witness. -/
def wTs' : TrainingState :=
  { wSt.ts with messages_on_current_topic := 0, current_topic_index := 1 }

/-- A configuration with an exchange limit of one. -/
def wCfg1 : LoopConfig := ⟨["alpha"], 1, 10, 5⟩

/-- A full context window for a horizon of one (2 × 1 pairs). -/
def wPairs : List (String × String) := [("a", "1"), ("b", "2")]

theorem pySliceLastN_zero (xs : List α) : pySliceLastN xs 0 = xs := rfl

theorem pySliceLastN_pos (xs : List α) (limit : Nat) (h : 0 < limit) :
    pySliceLastN xs limit = xs.drop (xs.length - limit) := by
  unfold pySliceLastN
  rw [if_neg (Nat.pos_iff_ne_zero.mp h)]

theorem get_next_topic_some (topics : List String) (s : TrainingState)
    (t : String) (s' : TrainingState)
    (h : get_next_topic topics s = some (t, s')) :
    topics[s.current_topic_index]? = some t ∧
    s' = { s with
      current_topic_index := (s.current_topic_index + 1) % topics.length } := by
  unfold get_next_topic at h
  cases hg : topics[s.current_topic_index]? with
  | none => rw [hg] at h; cases h
  | some u =>
    rw [hg] at h
    simp only [Option.some.injEq, Prod.mk.injEq] at h
    exact ⟨by rw [h.1], h.2.symm⟩

/-- C4: with `limit = 0` the log query returns the entire in-memory log
(the returned count equals `total_exchanges`), not zero exchanges; with
`limit > 0` it returns the `min limit total` most recent exchanges, a
suffix of the log, in insertion order. -/
theorem C4_log_query (log : List ConversationExchange) (limit : Nat) :
    (get_conversation_log log 0).2.2 = log ∧
    (get_conversation_log log 0).2.1 = (get_conversation_log log 0).1 ∧
    (0 < limit →
      (get_conversation_log log limit).2.1 = min limit log.length ∧
      (get_conversation_log log limit).2.2 = log.drop (log.length - limit) ∧
      (get_conversation_log log limit).2.2 <:+ log) := by
  refine ⟨rfl, rfl, fun h => ?_⟩
  have hd := pySliceLastN_pos log limit h
  unfold get_conversation_log
  refine ⟨?_, ?_, ?_⟩
  · simp only [hd, List.length_drop]
    omega
  · simpa using hd
  · simpa [hd] using List.drop_suffix (log.length - limit) log

theorem C4_log_query_witness :
    (0 : Nat) < 2 ∧
    ((get_conversation_log wLog 2).2.1 = min 2 wLog.length ∧
     (get_conversation_log wLog 2).2.2 = wLog.drop (wLog.length - 2) ∧
     (get_conversation_log wLog 2).2.2 <:+ wLog) :=
  ⟨by decide, (C4_log_query wLog 2).2.2 (by decide)⟩

/-- C5: a second Start while `running` is true is rejected with
`alreadyRunning` before any mutation, so the whole session state is
exactly what it was before the rejected call and no loop is spawned. -/
theorem C5_start_exclusive (s : TrainingState) (c l : Bool) (now : Nat)
    (h : s.running = true) :
    start_training s c l now = (s, .error .alreadyRunning) := by
  simp [start_training, h]

theorem C5_start_exclusive_witness :
    wRunning.running = true ∧
    start_training wRunning true true 7 = (wRunning, .error .alreadyRunning) :=
  ⟨rfl, C5_start_exclusive wRunning true true 7 rfl⟩

/-- C3 (counterexample): Start accepts a configuration whose topic list is
empty — no error is surfaced at Start time — and the error is instead
first discovered mid-loop: at the first topic switch the scheduler call
raises (`get_next_topic` returns `none` and `loopIter` propagates the
exception). -/
theorem C3_counterexample :
    (start_training initialTrainingState true true 0).2 = .ok () ∧
    get_next_topic [] (start_training initialTrainingState true true 0).1 = none ∧
    iterOk (loopIter wCfgEmpty wInp wSt) = none :=
  ⟨rfl, rfl, rfl⟩

/-- C3 (amended): Start performs no topic-list validation, so an empty
topic list is not rejected at Start time; it is first discovered mid-loop
when the scheduler is called, which then raises.  For every non-empty
topic list with the cursor in range, the next-topic operation never raises
and the cursor stays in `[0, topics.length)`. -/
theorem C3_no_startup_validation (topics : List String) (s idle : TrainingState)
    (hidx : s.current_topic_index < topics.length) (hidle : idle.running = false) :
    (∃ t s', get_next_topic topics s = some (t, s') ∧
        s'.current_topic_index < topics.length ∧
        s'.current_topic_index = (s.current_topic_index + 1) % topics.length) ∧
    get_next_topic [] s = none ∧
    (start_training idle true true 0).2 = .ok () := by
  have hpos : 0 < topics.length := Nat.lt_of_le_of_lt (Nat.zero_le _) hidx
  refine ⟨?_, ?_, ?_⟩
  · refine ⟨topics[s.current_topic_index],
      { s with current_topic_index := (s.current_topic_index + 1) % topics.length },
      ?_, Nat.mod_lt _ hpos, rfl⟩
    unfold get_next_topic
    rw [List.getElem?_eq_getElem hidx]
  · unfold get_next_topic
    simp
  · simp [start_training, hidle]

theorem loopIter_ok_log_exchanges (cfg : LoopConfig) (inp : IterInput)
    (st st' : LoopState) (tr : IterTrace)
    (h : loopIter cfg inp st = .ok (st', tr)) :
    (st'.ts.conversation_log = st.ts.conversation_log ∧
     st'.ts.exchanges_completed = st.ts.exchanges_completed) ∨
    (∃ e, st'.ts.conversation_log = st.ts.conversation_log ++ [e] ∧
          st'.ts.exchanges_completed = st.ts.exchanges_completed + 1) := by
  simp only [loopIter] at h
  split at h
  · split at h
    · simp at h
    · rename_i p heq
      obtain ⟨hg, hs⟩ := get_next_topic_some _ _ _ _ heq
      split at h <;>
      · simp only [Except.ok.injEq, Prod.mk.injEq] at h
        obtain ⟨h1, h2⟩ := h
        subst h1
        left
        simp [hs]
  · split at h
    · simp only [Except.ok.injEq, Prod.mk.injEq] at h
      obtain ⟨h1, h2⟩ := h
      subst h1
      left
      simp
    · split at h
      · simp only [Except.ok.injEq, Prod.mk.injEq] at h
        obtain ⟨h1, h2⟩ := h
        subst h1
        left
        simp
      · simp only [Except.ok.injEq, Prod.mk.injEq] at h
        obtain ⟨h1, h2⟩ := h
        subst h1
        right
        exact ⟨_, rfl, rfl⟩

theorem loopIter_error_fields (cfg : LoopConfig) (inp : IterInput)
    (st stE : LoopState) (h : loopIter cfg inp st = .error stE) :
    stE.ts.conversation_log = st.ts.conversation_log ∧
    stE.ts.exchanges_completed = st.ts.exchanges_completed ∧
    stE.loop_break_attempts = st.loop_break_attempts := by
  simp only [loopIter] at h
  split at h
  · split at h
    · simp only [Except.error.injEq] at h
      subst h
      exact ⟨rfl, rfl, rfl⟩
    · split at h <;> simp at h
  · split at h
    · simp at h
    · split at h <;> simp at h

theorem loopIter_ok_attempts_le (cfg : LoopConfig) (inp : IterInput)
    (st st' : LoopState) (tr : IterTrace)
    (h : loopIter cfg inp st = .ok (st', tr))
    (hle : st.loop_break_attempts ≤ 3) :
    st'.loop_break_attempts ≤ 3 := by
  simp only [loopIter] at h
  split at h
  · split at h
    · simp at h
    · split at h <;>
      · simp only [Except.ok.injEq, Prod.mk.injEq] at h
        obtain ⟨h1, h2⟩ := h
        subst h1
        simpa using hle
  · by_cases hc :
      (is_looping st.recent_llm_responses && decide (st.loop_break_attempts < 3)) = true
    · have hlt : st.loop_break_attempts < 3 :=
        of_decide_eq_true (Bool.and_elim_right hc)
      split at h
      · simp only [Except.ok.injEq, Prod.mk.injEq] at h
        obtain ⟨h1, h2⟩ := h
        subst h1
        simp [hc]
        omega
      · split at h <;>
        · simp only [Except.ok.injEq, Prod.mk.injEq] at h
          obtain ⟨h1, h2⟩ := h
          subst h1
          simp [hc]
          omega
    · split at h
      · simp only [Except.ok.injEq, Prod.mk.injEq] at h
        obtain ⟨h1, h2⟩ := h
        subst h1
        simp [hc]
      · split at h <;>
        · simp only [Except.ok.injEq, Prod.mk.injEq] at h
          obtain ⟨h1, h2⟩ := h
          subst h1
          simp [hc]

theorem runAux_cons_ok (cfg : LoopConfig) (inp : IterInput)
    (rest : List IterInput) (st st' : LoopState) (tr : IterTrace)
    (hstop : inp.stop = false) (hcond : loopCond cfg st = true)
    (hiter : loopIter cfg inp st = .ok (st', tr)) :
    runAux cfg (inp :: rest) st =
      (st :: (runAux cfg rest st').1, (runAux cfg rest st').2) := by
  simp only [runAux, applyStop, hstop]
  simp [hcond, hiter]

theorem runAux_inv (cfg : LoopConfig) (P : LoopState → Prop)
    (hstop : ∀ inp st, P st → P (applyStop inp st))
    (hok : ∀ inp st st' tr, P st → loopCond cfg st = true →
        loopIter cfg inp st = .ok (st', tr) → P st')
    (herr : ∀ inp st stE, P st → loopIter cfg inp st = .error stE → P stE) :
    ∀ (inputs : List IterInput) (st : LoopState), P st →
      (∀ s ∈ (runAux cfg inputs st).1, P s) ∧
      (∀ s, (runAux cfg inputs st).2 = some s → P s) := by
  intro inputs
  induction inputs with
  | nil =>
    intro st h
    simp only [runAux]
    split
    · refine ⟨?_, by simp⟩
      intro s hs
      simp at hs
      subst hs
      exact h
    · refine ⟨?_, ?_⟩
      · intro s hs
        simp at hs
        subst hs
        exact h
      · intro s hs
        simp at hs
        subst hs
        exact h
  | cons inp rest ih =>
    intro st h
    simp only [runAux]
    have h0 := hstop inp st h
    split
    · rename_i hcond
      cases hiter : loopIter cfg inp (applyStop inp st) with
      | error stE =>
        have hE := herr _ _ _ h0 hiter
        refine ⟨?_, ?_⟩
        · intro s hs
          simp at hs
          rcases hs with h1 | h1 <;> subst h1 <;> assumption
        · intro s hs
          simp at hs
          subst hs
          exact hE
      | ok pr =>
        obtain ⟨st', tr⟩ := pr
        have h' := hok _ _ _ _ h0 hcond hiter
        obtain ⟨ihT, ihF⟩ := ih st' h'
        refine ⟨?_, ?_⟩
        · intro s hs
          simp at hs
          rcases hs with h1 | h1
          · subst h1; exact h0
          · exact ihT s h1
        · intro s hs
          simp at hs
          exact ihF s hs
    · refine ⟨?_, ?_⟩
      · intro s hs
        simp at hs
        subst hs
        exact h0
      · intro s hs
        simp at hs
        subst hs
        exact h0

theorem training_loop_shape (cfg : LoopConfig) (diskOk : Bool) (g : GreetInput)
    (inputs : List IterInput) (ts0 : TrainingState) :
    ((training_loop cfg diskOk g inputs ts0).1 = [] ∧
     (training_loop cfg diskOk g inputs ts0).2 =
       some (finishRun diskOk { ts0 with running := false })) ∨
    (∃ greeting cd,
      send_to_llm_result g.llmReply = some greeting ∧
      g.cerebrumReply = some cd ∧
      (training_loop cfg diskOk g inputs ts0).1 =
        (runAux cfg inputs (greetState g ts0 greeting cd)).1 ∧
      ((runAux cfg inputs (greetState g ts0 greeting cd)).2 = none →
        (training_loop cfg diskOk g inputs ts0).2 = none) ∧
      (∀ stF, (runAux cfg inputs (greetState g ts0 greeting cd)).2 = some stF →
        (training_loop cfg diskOk g inputs ts0).2 =
          some (finishRun diskOk stF.ts))) := by
  cases hg : send_to_llm_result g.llmReply with
  | none => exact .inl ⟨by simp [training_loop, hg], by simp [training_loop, hg]⟩
  | some greeting =>
    cases hcd : g.cerebrumReply with
    | none =>
      exact .inl ⟨by simp [training_loop, hg, hcd], by simp [training_loop, hg, hcd]⟩
    | some cd =>
      right
      refine ⟨greeting, cd, rfl, rfl, ?_, ?_, ?_⟩
      · rcases hrr : runAux cfg inputs (greetState g ts0 greeting cd) with ⟨tr, fin⟩
        cases fin <;> simp [training_loop, hg, hcd, hrr]
      · intro hnone
        rcases hrr : runAux cfg inputs (greetState g ts0 greeting cd) with ⟨tr, fin⟩
        rw [hrr] at hnone
        simp at hnone
        subst hnone
        simp [training_loop, hg, hcd, hrr]
      · intro stF hsome
        rcases hrr : runAux cfg inputs (greetState g ts0 greeting cd) with ⟨tr, fin⟩
        rw [hrr] at hsome
        simp at hsome
        subst hsome
        simp [training_loop, hg, hcd, hrr]

/-- C1 (counterexample): a topic-switch iteration on a concrete state with
both agents replying successfully: the counter is reset, the scheduler
advances, the topic introduction is sent to the Subject and the Stall
Detector is not consulted, but NO exchange is recorded — the session log
still holds its single prior exchange and the trace records nothing,
refuting the claim that the exchange is appended to the session log. -/
theorem C1_counterexample :
    ((iterOk (loopIter wCfg wInp wSt)).map
      (fun r => (r.1.ts.messages_on_current_topic, r.1.ts.current_topic_index,
                 r.1.ts.current_topic, r.2.stallChecked, r.2.cerebrumCall,
                 r.2.recorded, r.1.ts.conversation_log.length))) =
      some (0, 1, "alpha", false, some "topic talk", none, 1) ∧
    wSt.ts.conversation_log.length = 1 ∧
    wCfg.topic_switch_interval ≤ wSt.ts.messages_on_current_topic :=
  ⟨rfl, rfl, by decide⟩

/-- C1 (amended): in every topic-switch iteration where the scheduler
succeeds, the orchestrator resets `messages_on_current_topic`, advances
the scheduler, sets the current topic, asks the Responder for a topic
introduction and forwards it to the Subject when produced, and does not
consult the Stall Detector — but it records no exchange: the session log
and `exchanges_completed` are unchanged. -/
theorem C1_topic_switch (cfg : LoopConfig) (inp : IterInput) (st : LoopState)
    (hsw : cfg.topic_switch_interval ≤ st.ts.messages_on_current_topic)
    (t : String) (ts' : TrainingState)
    (hnt : get_next_topic cfg.topics
      { st.ts with messages_on_current_topic := 0 } = some (t, ts')) :
    ∃ st2 tr, loopIter cfg inp st = .ok (st2, tr) ∧
      st2.ts.messages_on_current_topic = 0 ∧
      st2.ts.current_topic_index = ts'.current_topic_index ∧
      st2.ts.current_topic = t ∧
      st2.ts.conversation_log = st.ts.conversation_log ∧
      st2.ts.exchanges_completed = st.ts.exchanges_completed ∧
      tr.stallChecked = false ∧
      tr.recorded = none ∧
      tr.llmCall = some ⟨topic_intro_prompt t,
        pySliceLastN st.conversation_history cfg.max_conversation_history⟩ ∧
      (send_to_llm_result inp.llmReply = none → tr.cerebrumCall = none) ∧
      (∀ r, send_to_llm_result inp.llmReply = some r → tr.cerebrumCall = some r) := by
  obtain ⟨hg, hs⟩ := get_next_topic_some _ _ _ _ hnt
  subst hs
  simp only [loopIter, if_pos hsw, hnt]
  cases hl : send_to_llm_result inp.llmReply with
  | none =>
    exact ⟨_, _, rfl, rfl, rfl, rfl, rfl, rfl, rfl, rfl, rfl,
      fun _ => rfl, fun _ h => h⟩
  | some llm_response =>
    exact ⟨_, _, rfl, rfl, rfl, rfl, rfl, rfl, rfl, rfl, rfl,
      fun h => h, fun _ h => h⟩

theorem C1_topic_switch_witness :
    wCfg.topic_switch_interval ≤ wSt.ts.messages_on_current_topic ∧
    get_next_topic wCfg.topics
      { wSt.ts with messages_on_current_topic := 0 } = some ("alpha", wTs') ∧
    (∃ st2 tr, loopIter wCfg wInp wSt = .ok (st2, tr) ∧
      st2.ts.messages_on_current_topic = 0 ∧
      st2.ts.current_topic_index = wTs'.current_topic_index ∧
      st2.ts.current_topic = "alpha" ∧
      st2.ts.conversation_log = wSt.ts.conversation_log ∧
      st2.ts.exchanges_completed = wSt.ts.exchanges_completed ∧
      tr.stallChecked = false ∧
      tr.recorded = none ∧
      tr.llmCall = some ⟨topic_intro_prompt "alpha",
        pySliceLastN wSt.conversation_history wCfg.max_conversation_history⟩ ∧
      (send_to_llm_result wInp.llmReply = none → tr.cerebrumCall = none) ∧
      (∀ r, send_to_llm_result wInp.llmReply = some r → tr.cerebrumCall = some r)) :=
  ⟨by decide, by decide,
   C1_topic_switch wCfg wInp wSt (by decide) "alpha" wTs' (by decide)⟩

/-- C6: in every non-topic-switch iteration the stall expression is
evaluated; when the last three recorded Responder outputs are identical
and fewer than three recovery attempts were used, the recovery instruction
is issued to the Responder with an empty history and the attempt counter
is incremented by exactly one; otherwise the counter is reset to zero and
the normal instruction is issued with the current context-window slice.
The counter never exceeds three in any reachable state of a run, so at
most three consecutive recovery instructions are ever issued. -/
theorem C6_stall_recovery (cfg : LoopConfig) (inp : IterInput) (st : LoopState)
    (hns : st.ts.messages_on_current_topic < cfg.topic_switch_interval) :
    (∃ st' tr, loopIter cfg inp st = .ok (st', tr) ∧
      tr.stallChecked = true ∧
      ((is_looping st.recent_llm_responses = true ∧ st.loop_break_attempts < 3) →
        st'.loop_break_attempts = st.loop_break_attempts + 1 ∧
        tr.llmCall = some ⟨loop_break_prompt st.cerebrum_response, []⟩) ∧
      (¬ (is_looping st.recent_llm_responses = true ∧ st.loop_break_attempts < 3) →
        st'.loop_break_attempts = 0 ∧
        tr.llmCall = some ⟨st.cerebrum_response,
          pySliceLastN st.conversation_history cfg.max_conversation_history⟩) ∧
      st'.loop_break_attempts ≤ 3) ∧
    (∀ (diskOk : Bool) (g : GreetInput) (inputs : List IterInput)
        (ts0 : TrainingState),
      ∀ s ∈ (training_loop cfg diskOk g inputs ts0).1,
        s.loop_break_attempts ≤ 3) := by
  constructor
  · by_cases hc : (is_looping st.recent_llm_responses &&
        decide (st.loop_break_attempts < 3)) = true
    · have hlo : is_looping st.recent_llm_responses = true :=
        Bool.and_elim_left hc
      have hlt : st.loop_break_attempts < 3 :=
        of_decide_eq_true (Bool.and_elim_right hc)
      simp only [loopIter, if_neg (not_le.mpr hns)]
      cases hl : send_to_llm_result inp.llmReply with
      | none =>
        refine ⟨_, _, rfl, rfl, fun _ => ⟨by simp [hc], by simp [hc]⟩,
          fun hn => absurd ⟨hlo, hlt⟩ hn, ?_⟩
        simp [hc]
        omega
      | some r =>
        cases hcer : inp.cerebrumReply with
        | none =>
          refine ⟨_, _, rfl, rfl, fun _ => ⟨by simp [hc], by simp [hc]⟩,
            fun hn => absurd ⟨hlo, hlt⟩ hn, ?_⟩
          simp [hc]
          omega
        | some cd =>
          refine ⟨_, _, rfl, rfl, fun _ => ⟨by simp [hc], by simp [hc]⟩,
            fun hn => absurd ⟨hlo, hlt⟩ hn, ?_⟩
          simp [hc]
          omega
    · simp only [loopIter, if_neg (not_le.mpr hns)]
      cases hl : send_to_llm_result inp.llmReply with
      | none =>
        refine ⟨_, _, rfl, rfl,
          fun hp => absurd (by rw [hp.1, Bool.true_and]; exact decide_eq_true hp.2) hc,
          fun _ => ⟨by simp [hc], by simp [hc]⟩, ?_⟩
        simp [hc]
      | some r =>
        cases hcer : inp.cerebrumReply with
        | none =>
          refine ⟨_, _, rfl, rfl,
            fun hp => absurd (by rw [hp.1, Bool.true_and]; exact decide_eq_true hp.2) hc,
            fun _ => ⟨by simp [hc], by simp [hc]⟩, ?_⟩
          simp [hc]
        | some cd =>
          refine ⟨_, _, rfl, rfl,
            fun hp => absurd (by rw [hp.1, Bool.true_and]; exact decide_eq_true hp.2) hc,
            fun _ => ⟨by simp [hc], by simp [hc]⟩, ?_⟩
          simp [hc]
  · intro diskOk g inputs ts0 s hs
    have hinv := runAux_inv cfg (fun st => st.loop_break_attempts ≤ 3)
      (fun inp st h => by unfold applyStop; split <;> exact h)
      (fun inp st st' tr h _ hiter => loopIter_ok_attempts_le _ _ _ _ _ hiter h)
      (fun inp st stE h hiter => by
        show stE.loop_break_attempts ≤ 3
        rw [(loopIter_error_fields _ _ _ _ hiter).2.2]
        exact h)
    rcases training_loop_shape cfg diskOk g inputs ts0 with ⟨h1, _⟩ | ⟨gr, cd, _, _, h1, _, _⟩
    · rw [h1] at hs
      simp at hs
    · rw [h1] at hs
      exact (hinv inputs (greetState g ts0 gr cd) (by simp [greetState])).1 s hs

theorem C6_stall_recovery_witness :
    wStalled.ts.messages_on_current_topic < wCfg10.topic_switch_interval ∧
    ((∃ st' tr, loopIter wCfg10 wInpFail wStalled = .ok (st', tr) ∧
      tr.stallChecked = true ∧
      ((is_looping wStalled.recent_llm_responses = true ∧
          wStalled.loop_break_attempts < 3) →
        st'.loop_break_attempts = wStalled.loop_break_attempts + 1 ∧
        tr.llmCall = some ⟨loop_break_prompt wStalled.cerebrum_response, []⟩) ∧
      (¬ (is_looping wStalled.recent_llm_responses = true ∧
          wStalled.loop_break_attempts < 3) →
        st'.loop_break_attempts = 0 ∧
        tr.llmCall = some ⟨wStalled.cerebrum_response,
          pySliceLastN wStalled.conversation_history wCfg10.max_conversation_history⟩) ∧
      st'.loop_break_attempts ≤ 3) ∧
    (∀ (diskOk : Bool) (g : GreetInput) (inputs : List IterInput)
        (ts0 : TrainingState),
      ∀ s ∈ (training_loop wCfg10 diskOk g inputs ts0).1,
        s.loop_break_attempts ≤ 3)) :=
  ⟨by decide, C6_stall_recovery wCfg10 wInpFail wStalled (by decide)⟩

/-- C7: in a non-topic-switch iteration where the Responder produced an
output but the Subject call fails, the orchestrator records no exchange,
leaves the whole shared training state (counters and log) unchanged,
sleeps the configured delay (twice on this path) and continues: the
iteration returns normally and the loop proceeds with the next input. -/
theorem C7_subject_failure (cfg : LoopConfig) (inp : IterInput) (st : LoopState)
    (hns : st.ts.messages_on_current_topic < cfg.topic_switch_interval)
    (r : String) (hr : send_to_llm_result inp.llmReply = some r)
    (hc : inp.cerebrumReply = none) :
    ∃ st' tr, loopIter cfg inp st = .ok (st', tr) ∧
      st'.ts = st.ts ∧
      st'.conversation_history = st.conversation_history ∧
      tr.recorded = none ∧
      tr.cerebrumCall = some r ∧
      tr.sleeps = 2 ∧
      (∀ (rest : List IterInput), inp.stop = false → loopCond cfg st = true →
        runAux cfg (inp :: rest) st =
          (st :: (runAux cfg rest st').1, (runAux cfg rest st').2)) := by
  simp only [loopIter, if_neg (not_le.mpr hns), hr, hc]
  refine ⟨_, _, rfl, rfl, rfl, rfl, rfl, rfl, ?_⟩
  intro rest h1 h2
  refine runAux_cons_ok cfg inp rest st _
      { stallChecked := true,
        llmCall := some (if (is_looping st.recent_llm_responses &&
            decide (st.loop_break_attempts < 3)) = true then
          { message := loop_break_prompt st.cerebrum_response, history := [] }
        else
          { message := st.cerebrum_response,
            history := pySliceLastN st.conversation_history
              cfg.max_conversation_history }),
        cerebrumCall := some r, recorded := none, sleeps := 2 }
      h1 h2 ?_
  simp only [loopIter, if_neg (not_le.mpr hns), hr, hc]

theorem C7_subject_failure_witness :
    wSt.ts.messages_on_current_topic < wCfg10.topic_switch_interval ∧
    send_to_llm_result wInpFail.llmReply = some "next" ∧
    wInpFail.cerebrumReply = none ∧
    (∃ st' tr, loopIter wCfg10 wInpFail wSt = .ok (st', tr) ∧
      st'.ts = wSt.ts ∧
      st'.conversation_history = wSt.conversation_history ∧
      tr.recorded = none ∧
      tr.cerebrumCall = some "next" ∧
      tr.sleeps = 2 ∧
      (∀ (rest : List IterInput), wInpFail.stop = false →
        loopCond wCfg10 wSt = true →
        runAux wCfg10 (wInpFail :: rest) wSt =
          (wSt :: (runAux wCfg10 rest st').1, (runAux wCfg10 rest st').2))) :=
  ⟨by decide, by decide, rfl,
   C7_subject_failure wCfg10 wInpFail wSt (by decide) "next" (by decide) rfl⟩

theorem C3_no_startup_validation_witness :
    initialTrainingState.current_topic_index <
      (["alpha", "beta"] : List String).length ∧
    initialTrainingState.running = false ∧
    ((∃ t s',
        get_next_topic ["alpha", "beta"] initialTrainingState = some (t, s') ∧
        s'.current_topic_index < (["alpha", "beta"] : List String).length ∧
        s'.current_topic_index =
          (initialTrainingState.current_topic_index + 1) %
            (["alpha", "beta"] : List String).length) ∧
     get_next_topic [] initialTrainingState = none ∧
     (start_training initialTrainingState true true 0).2 = .ok ()) :=
  ⟨by decide, rfl,
   C3_no_startup_validation ["alpha", "beta"] initialTrainingState
     initialTrainingState (by decide) rfl⟩


theorem save_conversation_log_spec (diskOk : Bool) (ts : TrainingState) :
    (ts.conversation_log = [] → save_conversation_log diskOk ts = none) ∧
    (diskOk = true →
      (save_conversation_log diskOk ts = none ↔ ts.conversation_log = [])) ∧
    (∀ a, save_conversation_log diskOk ts = some a →
      a.conversation = ts.conversation_log ∧
      a.exchanges_completed = ts.exchanges_completed) := by
  unfold save_conversation_log
  refine ⟨fun h => by simp [h], fun hd => ?_, fun a ha => ?_⟩
  · subst hd
    by_cases he : ts.conversation_log = []
    · simp [he]
    · simp [he]
  · split at ha
    · cases ha
    · split at ha
      · injection ha with ha
        rw [← ha]
        exact ⟨rfl, rfl⟩
      · cases ha

theorem training_loop_disk_indep (cfg : LoopConfig) (g : GreetInput)
    (inputs : List IterInput) (ts0 : TrainingState) :
    (training_loop cfg false g inputs ts0).1 =
      (training_loop cfg true g inputs ts0).1 ∧
    (training_loop cfg false g inputs ts0).2.map (fun e => e.final) =
      (training_loop cfg true g inputs ts0).2.map (fun e => e.final) := by
  cases hg : send_to_llm_result g.llmReply with
  | none => constructor <;> simp [training_loop, hg, finishRun]
  | some greeting =>
    cases hcd : g.cerebrumReply with
    | none => constructor <;> simp [training_loop, hg, hcd, finishRun]
    | some cd =>
      rcases hrr : runAux cfg inputs (greetState g ts0 greeting cd) with ⟨tr, fin⟩
      cases fin <;> constructor <;> simp [training_loop, hg, hcd, hrr, finishRun]

/-- C2 (counterexample): a run started with `max_exchanges = 0` whose
greeting phase succeeds ends with `exchanges_completed = 1`: the greeting
exchange is recorded and counted before the loop condition is ever
checked, so the invariant fails for the accepted limit zero. -/
theorem C2_counterexample :
    ((training_loop wCfg0 true ⟨some "hello", some ⟨"hi", []⟩, 0⟩ []
        (start_training initialTrainingState true true 0).1).2.map
      (fun e => e.final.exchanges_completed)) = some 1 ∧
    wCfg0.max_exchanges = 0 :=
  ⟨rfl, rfl⟩

/-- C2 (amended): for every exchange limit of at least one and a fresh
session (counter zero), `exchanges_completed ≤ max_exchanges` holds in
every state observed at a loop-condition check and in the final state of
every terminating run; for the accepted limit zero the greeting pushes
the counter to one, violating the bound. -/
theorem C2_exchange_bound (cfg : LoopConfig) (diskOk : Bool) (g : GreetInput)
    (inputs : List IterInput) (ts0 : TrainingState)
    (hmax : 1 ≤ cfg.max_exchanges) (h0 : ts0.exchanges_completed = 0) :
    (∀ s ∈ (training_loop cfg diskOk g inputs ts0).1,
      s.ts.exchanges_completed ≤ cfg.max_exchanges) ∧
    (∀ e, (training_loop cfg diskOk g inputs ts0).2 = some e →
      e.final.exchanges_completed ≤ cfg.max_exchanges) := by
  have hinv := runAux_inv cfg
    (fun st => st.ts.exchanges_completed ≤ cfg.max_exchanges)
    (fun inp st h => by unfold applyStop; split <;> exact h)
    (fun inp st st' tr h hcond hiter => by
      show st'.ts.exchanges_completed ≤ cfg.max_exchanges
      have hlt : st.ts.exchanges_completed < cfg.max_exchanges := by
        simp [loopCond] at hcond
        exact hcond.2
      rcases loopIter_ok_log_exchanges _ _ _ _ _ hiter with ⟨_, he⟩ | ⟨e, _, he⟩ <;>
        rw [he] <;> omega)
    (fun inp st stE h hiter => by
      show stE.ts.exchanges_completed ≤ cfg.max_exchanges
      rw [(loopIter_error_fields _ _ _ _ hiter).2.1]
      exact h)
  rcases training_loop_shape cfg diskOk g inputs ts0 with
    ⟨h1, h2⟩ | ⟨gr, cd, hg, hcd, h1, h2, h3⟩
  · constructor
    · rw [h1]
      intro s hs
      simp at hs
    · intro e he
      rw [h2] at he
      injection he with he
      rw [← he]
      show ts0.exchanges_completed ≤ cfg.max_exchanges
      omega
  · have hInit : (greetState g ts0 gr cd).ts.exchanges_completed ≤
        cfg.max_exchanges := by
      simp [greetState, h0]
      omega
    constructor
    · rw [h1]
      intro s hs
      exact (hinv inputs _ hInit).1 s hs
    · intro e he
      rcases hrr : (runAux cfg inputs (greetState g ts0 gr cd)).2 with _ | stF
      · rw [h2 hrr] at he
        cases he
      · rw [h3 stF hrr] at he
        injection he with he
        rw [← he]
        show stF.ts.exchanges_completed ≤ cfg.max_exchanges
        exact (hinv inputs _ hInit).2 stF hrr

/-- C8: every terminating run ends with `running = false` and exactly one
flush of the session recorder; the artifact, when produced, contains the
whole in-memory log, which holds exactly `exchanges_completed` exchanges;
an empty log makes the flush a no-op with no artifact; and a flush
failure changes neither the trace nor the final state of the run. -/
theorem C8_run_end_flush (cfg : LoopConfig) (diskOk : Bool) (g : GreetInput)
    (inputs : List IterInput) (ts0 : TrainingState)
    (hlen : ts0.conversation_log.length = ts0.exchanges_completed) :
    (∀ e, (training_loop cfg diskOk g inputs ts0).2 = some e →
      e.final.running = false ∧
      e.flushCount = 1 ∧
      e.artifact = save_conversation_log diskOk e.final ∧
      (e.final.conversation_log = [] → e.artifact = none) ∧
      (diskOk = true → (e.artifact = none ↔ e.final.conversation_log = [])) ∧
      (∀ a, e.artifact = some a →
        a.conversation = e.final.conversation_log ∧
        a.exchanges_completed = e.final.exchanges_completed ∧
        a.conversation.length = e.final.exchanges_completed)) ∧
    ((training_loop cfg false g inputs ts0).1 =
      (training_loop cfg true g inputs ts0).1) ∧
    ((training_loop cfg false g inputs ts0).2.map (fun e => e.final) =
      (training_loop cfg true g inputs ts0).2.map (fun e => e.final)) := by
  refine ⟨?_, (training_loop_disk_indep cfg g inputs ts0).1,
    (training_loop_disk_indep cfg g inputs ts0).2⟩
  have hinv := runAux_inv cfg
    (fun st => st.ts.conversation_log.length = st.ts.exchanges_completed)
    (fun inp st h => by unfold applyStop; split <;> exact h)
    (fun inp st st' tr h hcond hiter => by
      show st'.ts.conversation_log.length = st'.ts.exchanges_completed
      rcases loopIter_ok_log_exchanges _ _ _ _ _ hiter with
        ⟨hl, he⟩ | ⟨e, hl, he⟩ <;> rw [hl, he] <;> simp [h])
    (fun inp st stE h hiter => by
      show stE.ts.conversation_log.length = stE.ts.exchanges_completed
      rw [(loopIter_error_fields _ _ _ _ hiter).1,
        (loopIter_error_fields _ _ _ _ hiter).2.1]
      exact h)
  have hfin : ∀ tsF : TrainingState,
      tsF.conversation_log.length = tsF.exchanges_completed →
      ∀ e, e = finishRun diskOk tsF →
      e.final.running = false ∧
      e.flushCount = 1 ∧
      e.artifact = save_conversation_log diskOk e.final ∧
      (e.final.conversation_log = [] → e.artifact = none) ∧
      (diskOk = true → (e.artifact = none ↔ e.final.conversation_log = [])) ∧
      (∀ a, e.artifact = some a →
        a.conversation = e.final.conversation_log ∧
        a.exchanges_completed = e.final.exchanges_completed ∧
        a.conversation.length = e.final.exchanges_completed) := by
    intro tsF hF e he
    subst he
    obtain ⟨hsave1, hsave2, hsave3⟩ :=
      save_conversation_log_spec diskOk { tsF with running := false }
    refine ⟨rfl, rfl, rfl, hsave1, hsave2, ?_⟩
    intro a ha
    obtain ⟨ha1, ha2⟩ := hsave3 a ha
    exact ⟨ha1, ha2, by rw [ha1]; exact hF⟩
  intro e he
  rcases training_loop_shape cfg diskOk g inputs ts0 with
    ⟨h1, h2⟩ | ⟨gr, cd, hg, hcd, h1, h2, h3⟩
  · rw [h2] at he
    injection he with he
    exact hfin { ts0 with running := false } hlen e he.symm
  · have hInit : (greetState g ts0 gr cd).ts.conversation_log.length =
        (greetState g ts0 gr cd).ts.exchanges_completed := by
      simp [greetState, hlen]
    rcases hrr : (runAux cfg inputs (greetState g ts0 gr cd)).2 with _ | stF
    · rw [h2 hrr] at he
      cases he
    · rw [h3 stF hrr] at he
      injection he with he
      exact hfin stF.ts ((hinv inputs _ hInit).2 stF hrr) e he.symm

theorem C2_exchange_bound_witness :
    1 ≤ wCfg1.max_exchanges ∧
    (start_training initialTrainingState true true 0).1.exchanges_completed = 0 ∧
    ((∀ s ∈ (training_loop wCfg1 true ⟨some "hello", some ⟨"hi", []⟩, 0⟩ []
        (start_training initialTrainingState true true 0).1).1,
      s.ts.exchanges_completed ≤ wCfg1.max_exchanges) ∧
    (∀ e, (training_loop wCfg1 true ⟨some "hello", some ⟨"hi", []⟩, 0⟩ []
        (start_training initialTrainingState true true 0).1).2 = some e →
      e.final.exchanges_completed ≤ wCfg1.max_exchanges)) :=
  ⟨by decide, by decide,
   C2_exchange_bound wCfg1 true ⟨some "hello", some ⟨"hi", []⟩, 0⟩ []
     (start_training initialTrainingState true true 0).1 (by decide) (by decide)⟩

theorem C8_run_end_flush_witness :
    (start_training initialTrainingState true true 0).1.conversation_log.length =
      (start_training initialTrainingState true true 0).1.exchanges_completed ∧
    ((∀ e, (training_loop wCfg1 true ⟨some "hello", some ⟨"hi", []⟩, 0⟩ []
        (start_training initialTrainingState true true 0).1).2 = some e →
      e.final.running = false ∧
      e.flushCount = 1 ∧
      e.artifact = save_conversation_log true e.final ∧
      (e.final.conversation_log = [] → e.artifact = none) ∧
      (true = true → (e.artifact = none ↔ e.final.conversation_log = [])) ∧
      (∀ a, e.artifact = some a →
        a.conversation = e.final.conversation_log ∧
        a.exchanges_completed = e.final.exchanges_completed ∧
        a.conversation.length = e.final.exchanges_completed)) ∧
    ((training_loop wCfg1 false ⟨some "hello", some ⟨"hi", []⟩, 0⟩ []
        (start_training initialTrainingState true true 0).1).1 =
      (training_loop wCfg1 true ⟨some "hello", some ⟨"hi", []⟩, 0⟩ []
        (start_training initialTrainingState true true 0).1).1) ∧
    ((training_loop wCfg1 false ⟨some "hello", some ⟨"hi", []⟩, 0⟩ []
        (start_training initialTrainingState true true 0).1).2.map (fun e => e.final) =
      (training_loop wCfg1 true ⟨some "hello", some ⟨"hi", []⟩, 0⟩ []
        (start_training initialTrainingState true true 0).1).2.map (fun e => e.final))) :=
  ⟨by decide,
   C8_run_end_flush wCfg1 true ⟨some "hello", some ⟨"hi", []⟩, 0⟩ []
     (start_training initialTrainingState true true 0).1 (by decide)⟩

theorem dedup_length_one_iff (l : List String) :
    l.dedup.length = 1 ↔ l ≠ [] ∧ ∀ x ∈ l, ∀ y ∈ l, x = y := by
  constructor
  · intro h
    obtain ⟨a, ha⟩ := List.length_eq_one.mp h
    constructor
    · intro hnil
      subst hnil
      simp at ha
    · intro x hx y hy
      have hx' : x ∈ l.dedup := List.mem_dedup.mpr hx
      have hy' : y ∈ l.dedup := List.mem_dedup.mpr hy
      rw [ha] at hx' hy'
      simp at hx' hy'
      rw [hx', hy']
  · rintro ⟨hne, hall⟩
    obtain ⟨a, ha⟩ : ∃ a, a ∈ l := by
      cases l with
      | nil => exact absurd rfl hne
      | cons b t => exact ⟨b, by simp⟩
    have hmem : a ∈ l.dedup := List.mem_dedup.mpr ha
    have hnd := l.nodup_dedup
    have hda : ∀ x ∈ l.dedup, x = a := fun x hx => hall x (List.mem_dedup.mp hx) a ha
    cases hd : l.dedup with
    | nil =>
      rw [hd] at hmem
      simp at hmem
    | cons b t =>
      cases t with
      | nil => rfl
      | cons c t2 =>
        rw [hd] at hnd
        have hb := hda b (by rw [hd]; simp)
        have hc := hda c (by rw [hd]; simp)
        rw [List.nodup_cons] at hnd
        exact absurd (by rw [hb, hc]; simp : b ∈ c :: t2) hnd.1

theorem send_to_llm_result_some (raw : Option String) (s : String)
    (h : send_to_llm_result raw = some s) :
    ∃ r, raw = some r ∧ s = pyStrip r := by
  unfold send_to_llm_result at h
  split at h
  · cases h
  · rename_i r
    split at h
    · cases h
    · injection h with h
      exact ⟨r, rfl, h.symm⟩

/-- C9: the stall-detector buffer keeps at most the last 10 Responder
outputs (oldest popped first once the length exceeds 10); the stall check
reports stalled exactly when at least 3 outputs are held and the last 3
are pairwise identical, and reports not stalled when the last 3 are
distinct; and every string the loop feeds into the buffer is the raw
Responder reply with whitespace stripped, so matches are exact matches of
trimmed strings. -/
theorem C9_stall_detector (recent : List String) (r : String)
    (h : recent.length ≤ 10) :
    (observeResponse recent r).length ≤ 10 ∧
    (recent.length < 10 → observeResponse recent r = recent ++ [r]) ∧
    (recent.length = 10 → observeResponse recent r = (recent ++ [r]).drop 1) ∧
    (is_looping recent = true ↔
      3 ≤ recent.length ∧
      ∀ x ∈ pySliceLastN recent 3, ∀ y ∈ pySliceLastN recent 3, x = y) ∧
    (∀ a b c, pySliceLastN recent 3 = [a, b, c] → a ≠ b →
      is_looping recent = false) ∧
    (∀ (cfg : LoopConfig) (inp : IterInput) (st st' : LoopState)
        (tr : IterTrace), loopIter cfg inp st = .ok (st', tr) →
      st'.recent_llm_responses = st.recent_llm_responses ∨
      ∃ raw, inp.llmReply = some raw ∧
        st'.recent_llm_responses =
          observeResponse st.recent_llm_responses (pyStrip raw)) := by
  have hiff : is_looping recent = true ↔
      3 ≤ recent.length ∧
      ∀ x ∈ pySliceLastN recent 3, ∀ y ∈ pySliceLastN recent 3, x = y := by
    unfold is_looping
    rw [Bool.and_eq_true, decide_eq_true_eq, beq_iff_eq]
    constructor
    · rintro ⟨h3, hd⟩
      exact ⟨h3, ((dedup_length_one_iff _).mp hd).2⟩
    · rintro ⟨h3, hall⟩
      refine ⟨h3, (dedup_length_one_iff _).mpr ⟨?_, hall⟩⟩
      have : (pySliceLastN recent 3).length = 3 := by
        rw [pySliceLastN_pos _ _ (by omega), List.length_drop]
        omega
      intro hnil
      rw [hnil] at this
      simp at this
  refine ⟨?_, ?_, ?_, hiff, ?_, ?_⟩
  · simp only [observeResponse]
    split
    · simp
      omega
    · rename_i hle
      simp at hle ⊢
      omega
  · intro hlt
    simp only [observeResponse]
    split
    · rename_i hgt
      exfalso
      simp at hgt
      omega
    · rfl
  · intro heq
    simp only [observeResponse]
    split
    · rfl
    · rename_i hle
      exfalso
      simp at hle
      omega
  · intro a b c habc hab
    by_contra hf
    have ht : is_looping recent = true := by
      cases hv : is_looping recent
      · exact absurd hv hf
      · rfl
    have hall := (hiff.mp ht).2
    exact hab (hall a (by rw [habc]; simp) b (by rw [habc]; simp))
  · intro cfg inp st st' tr hIter
    simp only [loopIter] at hIter
    split at hIter
    · split at hIter
      · simp at hIter
      · split at hIter <;>
        · simp only [Except.ok.injEq, Prod.mk.injEq] at hIter
          obtain ⟨h1, h2⟩ := hIter
          subst h1
          left
          rfl
    · split at hIter
      · simp only [Except.ok.injEq, Prod.mk.injEq] at hIter
        obtain ⟨h1, h2⟩ := hIter
        subst h1
        left
        rfl
      · rename_i sres hl
        obtain ⟨raw, hraw, hs⟩ := send_to_llm_result_some _ _ hl
        split at hIter <;>
        · simp only [Except.ok.injEq, Prod.mk.injEq] at hIter
          obtain ⟨h1, h2⟩ := hIter
          subst h1
          right
          exact ⟨raw, hraw, by rw [← hs]⟩

/-- C10 (counterexample): with a configured horizon of zero the Python
trim slice is `[-0:]`, the whole list, so pushing a single pair into an
empty window already leaves it holding 1 > 2 × 0 pairs: the cap is not
enforced for the accepted horizon zero. -/
theorem C10_counterexample :
    (pushHistory 0 [] ("a", "b")).length = 1 ∧
    ¬ ((pushHistory 0 [] ("a", "b")).length ≤ 0 * 2) :=
  ⟨rfl, by decide⟩

/-- C10 (amended): for every horizon of at least one, after a push the
window holds at most 2 × N pairs; below the cap the pair is appended with
no eviction, and at the cap the single oldest pair is dropped and the
remaining pairs keep their insertion order with the new pair last.  For
horizon zero the trim slice `[-0:]` is the whole list and the cap is not
enforced. -/
theorem C10_window_bound (m : Nat) (hist : List (String × String))
    (p : String × String) (hm : 1 ≤ m) :
    (pushHistory m hist p).length ≤ m * 2 ∧
    (hist.length < m * 2 → pushHistory m hist p = hist ++ [p]) ∧
    (hist.length = m * 2 → pushHistory m hist p = hist.drop 1 ++ [p]) := by
  refine ⟨?_, ?_, ?_⟩
  · simp only [pushHistory]
    split
    · rename_i hgt
      rw [pySliceLastN_pos _ _ (by omega)]
      simp
      omega
    · rename_i hle
      simp at hle ⊢
      omega
  · intro hlt
    simp only [pushHistory]
    split
    · rename_i hgt
      exfalso
      simp at hgt
      omega
    · rfl
  · intro heq
    simp only [pushHistory]
    split
    · rename_i hgt
      rw [pySliceLastN_pos _ _ (by omega)]
      have h1 : (hist ++ [p]).length - m * 2 = 1 := by
        simp
        omega
      rw [h1]
      exact List.drop_append_of_le_length (by omega)
    · rename_i hle
      exfalso
      simp at hle
      omega

theorem C9_stall_detector_witness :
    (["same", "same", "same"] : List String).length ≤ 10 ∧
    ((observeResponse ["same", "same", "same"] "x").length ≤ 10 ∧
    ((["same", "same", "same"] : List String).length < 10 →
      observeResponse ["same", "same", "same"] "x" =
        ["same", "same", "same"] ++ ["x"]) ∧
    ((["same", "same", "same"] : List String).length = 10 →
      observeResponse ["same", "same", "same"] "x" =
        (["same", "same", "same"] ++ ["x"]).drop 1) ∧
    (is_looping ["same", "same", "same"] = true ↔
      3 ≤ (["same", "same", "same"] : List String).length ∧
      ∀ x ∈ pySliceLastN ["same", "same", "same"] 3,
        ∀ y ∈ pySliceLastN ["same", "same", "same"] 3, x = y) ∧
    (∀ a b c, pySliceLastN ["same", "same", "same"] 3 = [a, b, c] → a ≠ b →
      is_looping ["same", "same", "same"] = false) ∧
    (∀ (cfg : LoopConfig) (inp : IterInput) (st st' : LoopState)
        (tr : IterTrace), loopIter cfg inp st = .ok (st', tr) →
      st'.recent_llm_responses = st.recent_llm_responses ∨
      ∃ raw, inp.llmReply = some raw ∧
        st'.recent_llm_responses =
          observeResponse st.recent_llm_responses (pyStrip raw))) :=
  ⟨by decide, C9_stall_detector ["same", "same", "same"] "x" (by decide)⟩

theorem C10_window_bound_witness :
    1 ≤ 1 ∧
    ((pushHistory 1 wPairs ("c", "3")).length ≤ 1 * 2 ∧
    (wPairs.length < 1 * 2 → pushHistory 1 wPairs ("c", "3") = wPairs ++ [("c", "3")]) ∧
    (wPairs.length = 1 * 2 →
      pushHistory 1 wPairs ("c", "3") = wPairs.drop 1 ++ [("c", "3")])) :=
  ⟨by decide, C10_window_bound 1 wPairs ("c", "3") (by decide)⟩

end LLMTrainer
